import Mathlib

/-!
Verification development for the IONEX library (nav-solutions/ionex).

Shallow embedding conventions:
- Rust f64 values are modelled as exact rationals. All arithmetic the
  library performs on them is modelled by the corresponding exact
  operation on the rationals. To keep every definition evaluable by the
  kernel, the four field operations are expressed through the reducible
  constructors mkRat and Rat.divInt (qadd, qmul, qsub, qdiv, qneg below);
  theorems qadd_eq etc. identify them with the standard operations.
- Rust i64 and i8 are modelled as integers; where wrap-around of the
  i8 accumulator matters it is modelled explicitly (wrap8 below).
- Fallible operations return Except values mirroring the Result type.
- Loops whose termination depends on numeric progress are given explicit
  fuel; the fuel is chosen large enough that every evaluation appearing
  in a theorem below finishes strictly before exhaustion.
-/

namespace Ionex

set_option maxRecDepth 16000

/-- Kernel-reducible addition on the rationals (equal to + by qadd_eq). -/
def qadd (a b : Rat) : Rat := mkRat (a.num * b.den + b.num * a.den) (a.den * b.den)

/-- Kernel-reducible multiplication on the rationals (equal to * by qmul_eq). -/
def qmul (a b : Rat) : Rat := mkRat (a.num * b.num) (a.den * b.den)

/-- Kernel-reducible negation on the rationals (equal to Neg.neg by qneg_eq). -/
def qneg (a : Rat) : Rat := mkRat (-a.num) a.den

/-- Kernel-reducible subtraction on the rationals (equal to - by qsub_eq). -/
def qsub (a b : Rat) : Rat := qadd a (qneg b)

/-- Kernel-reducible division on the rationals (equal to / by qdiv_eq). -/
def qdiv (a b : Rat) : Rat := Rat.divInt (a.num * b.den) (a.den * b.num)

/-- Fuel bound for the find_exponent loop; an f64 is a dyadic rational with
denominator at most 2 to the 1074, so 1200 exact decimal upscalings always
reach an integer. -/
def FUEL : Nat := 1200

/-- Exact model of 10.0_f64.powi: ten to an integer power, as a rational. -/
def pow10 (e : Int) : Rat :=
  if 0 ≤ e then ((10 : Int) ^ e.toNat : Int) else Rat.divInt 1 ((10 : Int) ^ (-e).toNat)

/-- Model of f64::round (round half away from zero) followed by the cast
to i64, on an exact rational. -/
def qround (x : Rat) : Int :=
  if 0 ≤ x then ⌊qadd x (Rat.divInt 1 2)⌋ else -⌊qadd (qneg x) (Rat.divInt 1 2)⌋

/-- Two-complement wrap of a loop counter into the i8 range, modelling what
the Rust i8 accumulator holds after n increments in a release build (in a
debug build the 128th increment panics instead). -/
def wrap8 (n : Nat) : Int :=
  ((n : Int) + 128) % 256 - 128

/-- Source: src/src/quantized.rs, struct Quantized: an (exponent, value)
pair representing value times ten to the minus exponent. -/
structure Quantized where
  exponent : Int
  value : Int
deriving DecidableEq

/-- Source: src/src/quantized.rs, the while loop of find_exponent run with
exact rational arithmetic: multiply by ten until the fractional part
vanishes (val.fract() == 0.0 holds exactly when the denominator is 1),
counting the steps. Returns none on fuel exhaustion. Every application of
this loop in the development below is at an exactly representable decimal
whose successive products stay well under 2 to the 53, where each f64
multiplication is exact, so this rational loop and the f64 loop agree
there; for small-magnitude inputs, where f64 rounding changes the count,
the bit-exact model findExponentLoopF64 below is authoritative. -/
def findExponentLoop : Nat → Rat → Option Nat
  | 0, _ => none
  | fuel + 1, val =>
    if val.den = 1 then some 0
    else (findExponentLoop fuel (qmul val 10)).map (· + 1)

/-- Source: src/src/quantized.rs, Quantized::find_exponent over the exact
rational loop (see the scope note on findExponentLoop: faithful on the
exactly representable decimals it is applied to below; the f64-exact
variant is Quantized.find_exponent_f64). The Rust function accumulates the
step count in an i8, so the returned exponent is the wrapped count. -/
def Quantized.find_exponent (value : Rat) : Int :=
  wrap8 ((findExponentLoop FUEL value).getD 0)

/-- Source: src/src/quantized.rs, Quantized::new: round value times ten to
the exponent to the nearest integer. -/
def Quantized.new (value : Rat) (exponent : Int) : Quantized :=
  ⟨exponent, qround (qmul value (pow10 exponent))⟩

/-- Source: src/src/quantized.rs, Quantized::auto_scaled. -/
def Quantized.auto_scaled (value : Rat) : Quantized :=
  Quantized.new value (Quantized.find_exponent value)

/-- Source: src/src/quantized.rs, Quantized::real_value: the stored value
divided by ten to the exponent. -/
def Quantized.real_value (q : Quantized) : Rat :=
  qdiv (q.value : Rat) (pow10 q.exponent)

/-- Source: src/src/quantized.rs, the manual PartialEq impl: equality
compares the decoded real values. -/
def Quantized.eqv (a b : Quantized) : Bool :=
  a.real_value == b.real_value

/-- Source: src/src/quantized.rs, the derived Hash impl: the hasher is fed
the raw fields in declaration order (exponent, then value), so two values
are guaranteed to hash alike exactly when this data coincides. -/
def Quantized.hashData (q : Quantized) : Int × Int :=
  (q.exponent, q.value)

/-- A normal-range IEEE-754 double, written as a mantissa-exponent pair
representing m times 2 to the e, with 2 to the 52 <= m < 2 to the 53 for
all values constructed below. -/
structure F64 where
  m : Nat
  e : Int
deriving DecidableEq

/-- Round-to-nearest-even division of naturals, the rounding IEEE-754
applies when converting a decimal literal or an exact product to the
nearest double. -/
def rneDiv (a b : Nat) : Nat :=
  let q := a / b
  let r := a % b
  if b < 2 * r then q + 1
  else if 2 * r < b then q
  else if q % 2 == 0 then q else q + 1

/-- Bit-exact model of the f64 statement val *= 10.0 on a normal-range
double: the exact product 10 m has 56 or 57 bits, is shifted down to 53
bits with round-to-nearest-even, and a carry to 2 to the 53 renormalizes.
The shift is 3 when the product is below 2 to the 56 and 4 otherwise. -/
def mulTen (x : F64) : F64 :=
  let p := 10 * x.m
  let s : Nat := if p < 2 ^ 56 then 3 else 4
  let q := p / 2 ^ s
  let r := p % 2 ^ s
  let half := 2 ^ (s - 1)
  let rounded := if half < r then q + 1 else if r < half then q
    else if q % 2 == 0 then q else q + 1
  if rounded = 2 ^ 53 then ⟨2 ^ 52, x.e + s + 1⟩ else ⟨rounded, x.e + s⟩

/-- Bit-exact model of val.fract() == 0.0 on a double: m times 2 to the e
is an integer exactly when e is non-negative or 2 to the minus e divides
the mantissa. -/
def isIntF64 (x : F64) : Bool :=
  decide (0 ≤ x.e) || decide (x.m % 2 ^ (-x.e).toNat = 0)

/-- Source: src/src/quantized.rs, the while loop of find_exponent, this
time run under bit-exact IEEE-754 double semantics (every val *= 10.0
rounds to 53 bits): multiply by ten until the fractional part vanishes,
counting the steps. This model reproduces every case of the repository
unit test test_exponent_finder, including find_exponent(0.333) = 3 whose
run depends on genuine f64 rounding. -/
def findExponentLoopF64 : Nat → F64 → Option Nat
  | 0, _ => none
  | fuel + 1, val =>
    if isIntF64 val then some 0
    else (findExponentLoopF64 fuel (mulTen val)).map (· + 1)

/-- Source: src/src/quantized.rs, Quantized::find_exponent under bit-exact
double semantics: the step count is accumulated in an i8, so the returned
exponent is the wrapped count (a debug build panics on the increment past
127 instead of wrapping). -/
def Quantized.find_exponent_f64 (x : F64) : Int :=
  wrap8 ((findExponentLoopF64 FUEL x).getD 0)

/-- The IEEE-754 double nearest the decimal 1e-300: the real value lies in
[2^-997, 2^-996), so the mantissa is 2^1049 / 10^300 rounded to nearest
even and the exponent is -1049. -/
def f64_1e300minus : F64 := ⟨rneDiv (2 ^ 1049) (10 ^ 300), -1049⟩

/-- The double 0.25 = 2^52 times 2^-54, the C10 witness input. -/
def f64_quarter : F64 := ⟨2 ^ 52, -54⟩

/-- Semantic error type of the library (src/src/error.rs together with the
variants the cell and linspace modules construct). -/
inductive Error where
  | NegativeStretchFactor
  | InvalidStretchFactor
  | OutsideSpatialBoundaries
  | OutsideTemporalBoundaries
  | TemporalMismatch
  | SpatialMismatch
  | InvalidTemporalPoint
  | UndefinedBoundaries
deriving DecidableEq

/-- Source: src/src/linspace.rs, struct Linspace. The source field named
end is spelled stop here because end is a Lean keyword. -/
structure Linspace where
  start : Rat
  stop : Rat
  spacing : Rat
deriving DecidableEq

/-- Source: src/src/linspace.rs, Linspace::stretch_mut. The guard is
factor.is_sign_negative(); rationals carry no negative zero, so the guard
is factor strictly below zero (a Rust literal 0.0 has positive sign and
passes the guard, exactly as modelled here). -/
def Linspace.stretch_mut (ls : Linspace) (factor : Rat) : Except Error Linspace :=
  if factor < 0 then .error .NegativeStretchFactor
  else .ok { ls with start := qmul ls.start factor, stop := qmul ls.stop factor }

/-- Source: src/src/linspace.rs, Linspace::resample_mut, same guard. -/
def Linspace.resample_mut (ls : Linspace) (factor : Rat) : Except Error Linspace :=
  if factor < 0 then .error .NegativeStretchFactor
  else .ok { ls with spacing := qmul ls.spacing factor }

/-- Source: src/src/linspace.rs, Linspace::minmax via min and max. -/
def Linspace.minq (ls : Linspace) : Rat := min ls.start ls.stop

/-- Source: src/src/linspace.rs, Linspace::max. -/
def Linspace.maxq (ls : Linspace) : Rat := max ls.start ls.stop

/-- Source: src/src/tec.rs, struct TEC. -/
structure TEC where
  tecu : Quantized
  rms : Option Quantized
  height : Option Quantized
deriving DecidableEq

/-- Source: src/src/tec.rs, TEC::from_tecu: auto-scale the TECu value. -/
def TEC.from_tecu (tecu : Rat) : TEC :=
  ⟨Quantized.auto_scaled tecu, none, none⟩

/-- Source: src/src/tec.rs, TEC::from_quantized: IONEX stores quantized
TEC with the sign of the exponent flipped. -/
def TEC.from_quantized (tecu : Int) (exponent : Int) : TEC :=
  ⟨⟨-exponent, tecu⟩, none, none⟩

/-- Source: src/src/tec.rs, the method TEC::tecu returning the decoded
TECu estimate (named tecu_real here as the struct field keeps the source
name tecu). -/
def TEC.tecu_real (t : TEC) : Rat :=
  t.tecu.real_value

/-- Source: src/src/tec.rs, TEC::set_quantized_root_mean_square. -/
def TEC.set_quantized_root_mean_square (t : TEC) (rms : Int) (exponent : Int) : TEC :=
  { t with rms := some ⟨-exponent, rms⟩ }

/-- Decidable equality for Except results, used to evaluate the fallible
operations at concrete inputs. -/
instance instDecEqExceptIonex {ε α : Type} [DecidableEq ε] [DecidableEq α] :
    DecidableEq (Except ε α) := fun a b =>
  match a, b with
  | .ok x, .ok y => if h : x = y then .isTrue (by rw [h]) else .isFalse (by simp [h])
  | .error x, .error y => if h : x = y then .isTrue (by rw [h]) else .isFalse (by simp [h])
  | .ok _, .error _ => .isFalse (by simp)
  | .error _, .ok _ => .isFalse (by simp)

/-- Source: src/src/coordinates.rs, struct QuantizedCoordinates. -/
structure QuantizedCoordinates where
  lat_ddeg : Quantized
  long_ddeg : Quantized
  alt_km : Quantized
deriving DecidableEq

/-- Source: src/src/coordinates.rs, QuantizedCoordinates::from_decimal_degrees. -/
def QuantizedCoordinates.from_decimal_degrees (lat long alt_km : Rat) : QuantizedCoordinates :=
  ⟨Quantized.auto_scaled lat, Quantized.auto_scaled long, Quantized.auto_scaled alt_km⟩

/-- Source: src/src/coordinates.rs, QuantizedCoordinates::from_quantized. -/
def QuantizedCoordinates.from_quantized (lat_ddeg long_ddeg alt_km : Quantized) :
    QuantizedCoordinates :=
  ⟨lat_ddeg, long_ddeg, alt_km⟩

/-- Source: src/src/key.rs, struct Key: an epoch (modelled as a rational
count of seconds) plus quantized coordinates. -/
structure Key where
  epoch : Rat
  coordinates : QuantizedCoordinates
deriving DecidableEq

/-- Source: src/src/key.rs, Key::from_decimal_degrees_km. -/
def Key.from_decimal_degrees_km (epoch lat_ddeg long_ddeg alt_km : Rat) : Key :=
  ⟨epoch, QuantizedCoordinates.from_decimal_degrees lat_ddeg long_ddeg alt_km⟩

/-- BTreeMap key identification: the derived Ord on Key compares the epoch
and then the coordinates, and the manual Ord on Quantized compares decoded
real values, so two keys address the same map entry exactly when the epoch
and the three decoded coordinates coincide. -/
def Key.btreeEq (a b : Key) : Bool :=
  a.epoch == b.epoch
    && a.coordinates.lat_ddeg.eqv b.coordinates.lat_ddeg
    && a.coordinates.long_ddeg.eqv b.coordinates.long_ddeg
    && a.coordinates.alt_km.eqv b.coordinates.alt_km

/-- Source: src/src/record/mod.rs, struct Record: a BTreeMap from Key to
TEC, modelled as an association list whose keys are identified through
Key.btreeEq. The list keeps insertion order; every theorem below about a
record is order-insensitive (emptiness, lengths, membership, pointwise
equality), so the missing sortedness of the model is never load-bearing. -/
abbrev Record := List (Key × TEC)

/-- Source: src/src/record/mod.rs, Record::default. -/
def Record.empty : Record := []

/-- Source: src/src/record/mod.rs, Record::get (BTreeMap::get). -/
def Record.get (r : Record) (k : Key) : Option TEC :=
  (r.find? (fun e => Key.btreeEq e.1 k)).map (·.2)

/-- Source: src/src/record/mod.rs, Record::insert (BTreeMap::insert:
replace the value when an equal key is present, append otherwise). -/
def Record.insert (r : Record) (k : Key) (v : TEC) : Record :=
  if r.any (fun e => Key.btreeEq e.1 k) then
    r.map (fun e => if Key.btreeEq e.1 k then (e.1, v) else e)
  else r ++ [(k, v)]

/-- Source: src/src/record/mod.rs, Record::get_mut followed by a field
update: apply f to the entry addressed by k, if any. -/
def Record.modify (r : Record) (k : Key) (f : TEC → TEC) : Record :=
  r.map (fun e => if Key.btreeEq e.1 k then (e.1, f e.2) else e)

/-- A geographic point as used through the geo crate: x is the longitude
and y the latitude, both in decimal degrees. -/
abbrev Point := Rat × Rat

/-- Model of geo Rect: the normalized (min, max) corner pair. -/
structure Rect where
  rmin : Point
  rmax : Point
deriving DecidableEq

/-- Model of geo Rect::new, which normalizes the two corners; rmin and
rmax model the min() and max() accessors. -/
def Rect.build (c1 c2 : Point) : Rect :=
  ⟨(min c1.1 c2.1, min c1.2 c2.2), (max c1.1 c2.1, max c1.2 c2.2)⟩

/-- Model of geo Contains for a Rect and a Point: geo implements the
DE-9IM interior-based predicate, whose comparisons are strict, so points
on the boundary of the rectangle are not contained. -/
def Rect.contains_point (r : Rect) (p : Point) : Bool :=
  decide (r.rmin.1 < p.1) && decide (p.1 < r.rmax.1)
    && decide (r.rmin.2 < p.2) && decide (p.2 < r.rmax.2)

/-- Model of geo Contains for two Rects: coordinate-wise inclusion of the
second rectangle in the first, boundary included. -/
def Rect.contains_rect (r other : Rect) : Bool :=
  decide (r.rmin.1 ≤ other.rmin.1) && decide (other.rmax.1 ≤ r.rmax.1)
    && decide (r.rmin.2 ≤ other.rmin.2) && decide (other.rmax.2 ≤ r.rmax.2)

/-- Source: src/src/cell/mod.rs, struct TecPoint. -/
structure TecPoint where
  tec : TEC
  point : Point
deriving DecidableEq

/-- Source: src/src/cell/mod.rs, struct MapCell. -/
structure MapCell where
  epoch : Rat
  north_east : TecPoint
  north_west : TecPoint
  south_east : TecPoint
  south_west : TecPoint
deriving DecidableEq

/-- Source: src/src/cell/mod.rs, MapCell::from_lat_long_degrees: each
cardinal tuple is (latitude, longitude) and geo points are built as
Point::new(latitude, longitude), so point.x holds the first component of
the pair exactly as in the source. -/
def MapCell.from_lat_long_degrees (epoch : Rat)
    (northeast_ddeg : Rat × Rat) (northeast_tec : TEC)
    (northwest_ddeg : Rat × Rat) (northwest_tec : TEC)
    (southeast_ddeg : Rat × Rat) (southeast_tec : TEC)
    (southwest_ddeg : Rat × Rat) (southwest_tec : TEC) : MapCell :=
  { epoch
    north_east := ⟨northeast_tec, (northeast_ddeg.1, northeast_ddeg.2)⟩
    north_west := ⟨northwest_tec, (northwest_ddeg.1, northwest_ddeg.2)⟩
    south_east := ⟨southeast_tec, (southeast_ddeg.1, southeast_ddeg.2)⟩
    south_west := ⟨southwest_tec, (southwest_ddeg.1, southwest_ddeg.2)⟩ }

/-- Source: src/src/cell/mod.rs, MapCell::from_unitary_tec: the unit cell
with corners (1,1), (0,1), (1,0), (0,0). -/
def MapCell.from_unitary_tec (epoch : Rat)
    (northeast_tec northwest_tec southeast_tec southwest_tec : TEC) : MapCell :=
  MapCell.from_lat_long_degrees epoch
    (1, 1) northeast_tec
    (0, 1) northwest_tec
    (1, 0) southeast_tec
    (0, 0) southwest_tec

/-- Source: src/src/cell/mod.rs, MapCell::bounding_rect_degrees. -/
def MapCell.bounding_rect_degrees (c : MapCell) : Rect :=
  Rect.build c.south_west.point c.north_east.point

/-- Source: src/src/cell/mod.rs, MapCell::contains for a point geometry. -/
def MapCell.contains_point (c : MapCell) (p : Point) : Bool :=
  c.bounding_rect_degrees.contains_point p

/-- Source: src/src/cell/mod.rs, MapCell::contains for a rectangle. -/
def MapCell.contains_rect (c : MapCell) (r : Rect) : Bool :=
  c.bounding_rect_degrees.contains_rect r

/-- Source: src/src/cell/mod.rs, MapCell::latitude_span_degrees. -/
def MapCell.latitude_span_degrees (c : MapCell) : Rat :=
  qsub c.bounding_rect_degrees.rmax.2 c.bounding_rect_degrees.rmin.2

/-- Source: src/src/cell/mod.rs, MapCell::longitude_span_degrees. -/
def MapCell.longitude_span_degrees (c : MapCell) : Rat :=
  qsub c.bounding_rect_degrees.rmax.1 c.bounding_rect_degrees.rmin.1

/-- Source: src/src/cell/mod.rs, MapCell::spatial_tec_interp, translated
literally: p is point.y over the latitude span, q is point.x over the
longitude span, and the output TECu is
(1-p)(1-q) e00 + p(1-q) e10 + q(1-p) e01 + p q e11
with e00 = south west, e10 = south east, e01 = north west,
e11 = north east. -/
def MapCell.spatial_tec_interp (c : MapCell) (point : Point) : Except Error TEC :=
  if !(c.contains_point point) then .error .OutsideSpatialBoundaries
  else
    let p := qdiv point.2 c.latitude_span_degrees
    let q := qdiv point.1 c.longitude_span_degrees
    let e00 := c.south_west.tec.tecu_real
    let e10 := c.south_east.tec.tecu_real
    let e01 := c.north_west.tec.tecu_real
    let e11 := c.north_east.tec.tecu_real
    let tecu :=
      qadd (qadd (qadd (qmul (qmul (qsub 1 p) (qsub 1 q)) e00)
        (qmul (qmul p (qsub 1 q)) e10))
        (qmul (qmul q (qsub 1 p)) e01))
        (qmul (qmul p q) e11)
    .ok (TEC.from_tecu tecu)

/-- Source: src/src/cell/mod.rs, MapCell::temporal_spatial_tec_interp:
both spatial interpolations are computed first (propagating their error),
then the epoch is placed in the forward interval, the backward interval,
or rejected with TemporalMismatch. Durations are already in seconds, so
to_seconds is the identity of this model. -/
def MapCell.temporal_spatial_tec_interp (c : MapCell) (epoch : Rat) (coordinates : Point)
    (rhs : MapCell) : Except Error TEC := do
  let tecu_0 := (← c.spatial_tec_interp coordinates).tecu_real
  let tecu_1 := (← rhs.spatial_tec_interp coordinates).tecu_real
  if c.epoch ≤ epoch ∧ epoch < rhs.epoch then
    let dt := qsub rhs.epoch c.epoch
    let tecu := qadd (qmul (qdiv (qsub rhs.epoch epoch) dt) tecu_0)
      (qmul (qdiv (qsub epoch c.epoch) dt) tecu_1)
    return TEC.from_tecu tecu
  else if rhs.epoch ≤ epoch ∧ epoch < c.epoch then
    let dt := qsub c.epoch rhs.epoch
    let tecu := qadd (qmul (qdiv (qsub c.epoch epoch) dt) tecu_1)
      (qmul (qdiv (qsub epoch rhs.epoch) dt) tecu_0)
    return TEC.from_tecu tecu
  else
    throw Error.TemporalMismatch

/-- The spatial interpolation formula as worded by the specification:
with p_x = x over the longitude span and p_y = y over the latitude span,
tec(p) = (1-p_y)(1-p_x) SW + (1-p_y) p_x SE + p_y (1-p_x) NW + p_y p_x NE.
This definition follows the words of the spec so that it can be compared
with the implementation above. -/
def spec_bilinear_tecu (c : MapCell) (point : Point) : Rat :=
  let px := qdiv point.1 c.longitude_span_degrees
  let py := qdiv point.2 c.latitude_span_degrees
  qadd (qadd (qadd (qmul (qmul (qsub 1 py) (qsub 1 px)) c.south_west.tec.tecu_real)
    (qmul (qmul (qsub 1 py) px) c.south_east.tec.tecu_real))
    (qmul (qmul py (qsub 1 px)) c.north_west.tec.tecu_real))
    (qmul (qmul py px) c.north_east.tec.tecu_real)

/-- Concrete unit cell whose south-east corner carries 1 TECu and whose
other corners carry 0 TECu; the C4 failing input. -/
def seGradientCell : MapCell :=
  MapCell.from_unitary_tec 0
    (TEC.from_tecu 0) (TEC.from_tecu 0) (TEC.from_tecu 1) (TEC.from_tecu 0)

/-- Concrete unit cell with 1 TECu on every corner, at a given epoch; used
by the C5 witness. -/
def onesCell (epoch : Rat) : MapCell :=
  MapCell.from_unitary_tec epoch
    (TEC.from_tecu 1) (TEC.from_tecu 1) (TEC.from_tecu 1) (TEC.from_tecu 1)

/-- Source: src/src/grid.rs, struct Grid. -/
structure Grid where
  latitude : Linspace
  longitude : Linspace
  altitude : Linspace
deriving DecidableEq

/-- Source: src/src/grid.rs, struct GridSpecs (one LAT/LON1/LON2/DLON/H
body line). -/
structure GridSpecs where
  latitude_ddeg : Rat
  altitude_km : Rat
  longitude_space : Linspace
deriving DecidableEq

/-- Source: src/src/grid.rs, GridSpecs::default. -/
def GridSpecs.empty : GridSpecs := ⟨0, 0, ⟨0, 0, 0⟩⟩

/-- Source: src/src/version.rs, struct Version. -/
structure Version where
  major : Nat
  minor : Nat
deriving DecidableEq

/-- Derived lexicographic Ord of Version, as std::cmp::min uses it. -/
def Version.minOrd (a b : Version) : Version :=
  if a.major < b.major then a
  else if b.major < a.major then b
  else if a.minor ≤ b.minor then a else b

/-- Source: src/src/mapf.rs, MappingFunction (None, CosZ, QFactor). -/
inductive MappingFunction where
  | nofn
  | cosz
  | qfactor
deriving DecidableEq

/-- Source: src/src/header/mod.rs, struct Header. The reference system sum
type (src/src/system.rs) is modelled by its textual tag, which is all the
claims compare; epochs and durations are rational second counts. -/
structure Header where
  version : Version
  program : Option String
  run_by : Option String
  date : Option String
  license : Option String
  doi : Option String
  number_of_maps : Nat
  epoch_of_first_map : Rat
  epoch_of_last_map : Rat
  reference_system : String
  description : Option String
  mapf : MappingFunction
  map_dimension : Nat
  base_radius_km : Rat
  sampling_period : Rat
  grid : Grid
  elevation_cutoff : Rat
  exponent : Int
  comments : List String
deriving DecidableEq

/-- One whitespace-separated token of a body data line: omitted stands for
a token whose text contains 9999, val n for a token parsing as the integer
n, bad for a token the i64 parser rejects (logged and skipped). -/
inductive DataToken where
  | omitted
  | val (n : Int)
  | bad
deriving DecidableEq

/-- One line of the IONEX body, in structured form. Each constructor is
one marker case of the dispatch in src/src/parsing.rs (a line is
recognized by its length being above 60 and by the marker text found past
column 60); comment models the lines is_comment accepts, and dataLine
models any remaining line, whose whitespace-separated tokens are stacked
into the epoch buffer. -/
inductive BodyLine where
  | comment (text : String)
  | exponentLine (e : Int)
  | epochLine (t : Rat)
  | startTecMap
  | startRmsMap
  | startHeightMap
  | gridSpecLine (specs : Option GridSpecs)
  | endTecMap
  | endRmsMap
  | endHeightMap
  | endOfFile
  | dataLine (tokens : List DataToken)
deriving DecidableEq

/-- The mutable local state of parse_record (src/src/parsing.rs). -/
structure ParseState where
  exponent : Int
  epoch : Rat
  grid_specs : GridSpecs
  long_ptr : Rat
  longitude_exponent : Int
  record : Record
  comments : List String
  epoch_buf : List DataToken

/-- Source: src/src/parsing.rs, the token walk under END OF TEC MAP: a
9999 token advances the longitude cursor; any other token is skipped
without advancing once the cursor exceeds the grid-spec longitude end;
otherwise a parsed integer is inserted under the key built from the
grid-spec latitude, the cursor and the grid-spec altitude, and the cursor
advances (also after a token the integer parser rejects). -/
def flushTec (latExp altExp : Int) (st : ParseState) : ParseState :=
  st.epoch_buf.foldl (fun s tok =>
    match tok with
    | .omitted =>
      { s with long_ptr := qadd s.long_ptr s.grid_specs.longitude_space.spacing }
    | .val n =>
      if s.grid_specs.longitude_space.stop < s.long_ptr then s
      else
        let key : Key := ⟨s.epoch, QuantizedCoordinates.from_quantized
          (Quantized.new s.grid_specs.latitude_ddeg latExp)
          (Quantized.new s.long_ptr s.longitude_exponent)
          (Quantized.new s.grid_specs.altitude_km altExp)⟩
        { s with
          record := s.record.insert key (TEC.from_quantized n s.exponent)
          long_ptr := qadd s.long_ptr s.grid_specs.longitude_space.spacing }
    | .bad =>
      if s.grid_specs.longitude_space.stop < s.long_ptr then s
      else { s with long_ptr := qadd s.long_ptr s.grid_specs.longitude_space.spacing }) st

/-- Source: src/src/parsing.rs, the token walk under END OF RMS MAP: the
same cursor walk, updating the RMS field of an existing entry. -/
def flushRms (latExp altExp : Int) (st : ParseState) : ParseState :=
  st.epoch_buf.foldl (fun s tok =>
    match tok with
    | .omitted =>
      { s with long_ptr := qadd s.long_ptr s.grid_specs.longitude_space.spacing }
    | .val n =>
      if s.grid_specs.longitude_space.stop < s.long_ptr then s
      else
        let key : Key := ⟨s.epoch, QuantizedCoordinates.from_quantized
          (Quantized.new s.grid_specs.latitude_ddeg latExp)
          (Quantized.new s.long_ptr s.longitude_exponent)
          (Quantized.new s.grid_specs.altitude_km altExp)⟩
        { s with
          record := s.record.modify key
            (fun t => t.set_quantized_root_mean_square n s.exponent)
          long_ptr := qadd s.long_ptr s.grid_specs.longitude_space.spacing }
    | .bad =>
      if s.grid_specs.longitude_space.stop < s.long_ptr then s
      else { s with long_ptr := qadd s.long_ptr s.grid_specs.longitude_space.spacing }) st

/-- Source: src/src/parsing.rs, the per-line dispatch of parse_record:
a comment is stored; an EXPONENT line replaces the current exponent; an
EPOCH OF CURRENT MAP line replaces the current epoch; START markers clear
the token buffer; a LAT/LON1/LON2/DLON/H line installs the new grid specs
and resets the longitude cursor to 0.0 when its specs parse (the previous
specs are kept otherwise), recomputes the longitude exponent, and clears
the token buffer WITHOUT flushing it; END OF TEC MAP and END OF RMS MAP
flush the buffered tokens and clear the buffer; END OF HEIGHT MAP only
clears it; any other line stacks its tokens. -/
def parseLine (latExp altExp : Int) (st : ParseState) (line : BodyLine) : ParseState :=
  match line with
  | .comment text => { st with comments := st.comments ++ [text] }
  | .exponentLine e => { st with exponent := e }
  | .epochLine t => { st with epoch := t }
  | .startTecMap => { st with epoch_buf := [] }
  | .startRmsMap => { st with epoch_buf := [] }
  | .startHeightMap => { st with epoch_buf := [] }
  | .gridSpecLine specs =>
    let st1 := match specs with
      | some s2 => { st with grid_specs := s2, long_ptr := 0 }
      | none => st
    { st1 with
      longitude_exponent := Quantized.find_exponent st1.grid_specs.longitude_space.spacing
      epoch_buf := [] }
  | .endTecMap => { flushTec latExp altExp st with epoch_buf := [] }
  | .endRmsMap => { flushRms latExp altExp st with epoch_buf := [] }
  | .endHeightMap => { st with epoch_buf := [] }
  | .endOfFile => st
  | .dataLine toks => { st with epoch_buf := st.epoch_buf ++ toks }

/-- The line loop of parse_record: process lines in order and stop at the
END OF FILE marker (or at the end of input) without flushing. -/
def parseLines (latExp altExp : Int) (st : ParseState) : List BodyLine → ParseState
  | [] => st
  | line :: rest =>
    if line = .endOfFile then st
    else parseLines latExp altExp (parseLine latExp altExp st line) rest

/-- Source: src/src/parsing.rs, parse_record: the initial state takes the
exponent and first epoch from the header, default grid specs, a zero
longitude cursor, and the latitude and altitude exponents are derived once
from the header grid spacings. Returns the record and the comment list. -/
def parse_record (header : Header) (lines : List BodyLine) : Record × List String :=
  let latExp := Quantized.find_exponent header.grid.latitude.spacing
  let altExp := Quantized.find_exponent header.grid.altitude.spacing
  let st0 : ParseState :=
    { exponent := header.exponent
      epoch := header.epoch_of_first_map
      grid_specs := GridSpecs.empty
      long_ptr := 0
      longitude_exponent := 0
      record := Record.empty
      comments := []
      epoch_buf := [] }
  let stf := parseLines latExp altExp st0 lines
  (stf.record, stf.comments)

/-- The formatter latitude loop (src/src/record/formatting.rs): from the
latitude maximum, step by the (negative) spacing while at least the
minimum. Fuel-bounded; the Rust loop diverges for a non-negative spacing
with distinct bounds, which no conforming header has. -/
def latScanLoop : Nat → Rat → Rat → Rat → List Rat
  | 0, _, _, _ => []
  | fuel + 1, ptr, latmin, spacing =>
    if ptr < latmin then []
    else ptr :: latScanLoop fuel (qadd ptr spacing) latmin spacing

/-- The formatter longitude loop: from the longitude minimum, step by the
spacing while at most the maximum. Fuel-bounded like latScanLoop. -/
def lonScanLoop : Nat → Rat → Rat → Rat → List Rat
  | 0, _, _, _ => []
  | fuel + 1, ptr, lonmax, spacing =>
    if lonmax < ptr then []
    else ptr :: lonScanLoop fuel (qadd ptr spacing) lonmax spacing

/-- Source: src/src/record/mod.rs, Record::epochs_iter: distinct epochs of
the record keys. The BTreeMap iterates keys in order; this model keeps the
first-occurrence order, which coincides for the single-epoch records the
theorems below evaluate. -/
def Record.epochs_iter (r : Record) : List Rat :=
  (r.map (fun e => e.1.epoch)).foldl
    (fun acc t => if acc.contains t then acc else acc ++ [t]) []

/-- The data token the TEC scan of Record::format emits for one grid
coordinate: the raw quantized value of the stored TEC, or the 9999
sentinel when the key is absent. -/
def formatTecToken (r : Record) (epoch lat lon alt : Rat) : DataToken :=
  match r.get ⟨epoch, QuantizedCoordinates.from_decimal_degrees lat lon alt⟩ with
  | some tec => .val tec.tecu.value
  | none => .omitted

/-- The data token the RMS scan of Record::format emits: the raw RMS value
when the key is present and carries one, the 9999 sentinel otherwise. -/
def formatRmsToken (r : Record) (epoch lat lon alt : Rat) : DataToken :=
  match r.get ⟨epoch, QuantizedCoordinates.from_decimal_degrees lat lon alt⟩ with
  | some tec =>
    match tec.rms with
    | some rms => .val rms.value
    | none => .omitted
  | none => .omitted

/-- Source: src/src/record/formatting.rs, Record::format, in structured
lines. For each distinct epoch: a START OF TEC MAP line, the epoch line,
then for each latitude from the maximum down by the spacing a grid-spec
line carrying the header longitude axis and the fixed altitude followed by
the row of samples from the longitude minimum up (the Rust code breaks the
tokens into 16-value physical lines; the parser concatenates consecutive
data lines into one buffer, so one structured data line per row is
observationally identical), then END OF TEC MAP. If any visited entry
carries an RMS value the same scan is repeated as RMS blocks, and END OF
FILE terminates the output. -/
def Record.format (header : Header) (r : Record) : List BodyLine :=
  let latmin := header.grid.latitude.minq
  let latmax := header.grid.latitude.maxq
  let lonmin := header.grid.longitude.minq
  let lonmax := header.grid.longitude.maxq
  let alt := header.grid.altitude.start
  let lats := latScanLoop FUEL latmax latmin header.grid.latitude.spacing
  let lons := lonScanLoop FUEL lonmin lonmax header.grid.longitude.spacing
  let epochs := r.epochs_iter
  let has_rms := epochs.any (fun t => lats.any (fun lat => lons.any (fun lon =>
    match r.get ⟨t, QuantizedCoordinates.from_decimal_degrees lat lon alt⟩ with
    | some tec => tec.rms.isSome
    | none => false)))
  let tecBlocks := epochs.flatMap (fun t =>
    [BodyLine.startTecMap, BodyLine.epochLine t] ++
    lats.flatMap (fun lat =>
      [BodyLine.gridSpecLine (some ⟨lat, alt, header.grid.longitude⟩),
       BodyLine.dataLine (lons.map (fun lon => formatTecToken r t lat lon alt))]) ++
    [BodyLine.endTecMap])
  let rmsBlocks := if has_rms then
    epochs.flatMap (fun t =>
      [BodyLine.startRmsMap, BodyLine.epochLine t] ++
      lats.flatMap (fun lat =>
        [BodyLine.gridSpecLine (some ⟨lat, alt, header.grid.longitude⟩),
         BodyLine.dataLine (lons.map (fun lon => formatRmsToken r t lat lon alt))]) ++
      [BodyLine.endRmsMap])
    else []
  tecBlocks ++ rmsBlocks ++ [BodyLine.endOfFile]

/-- A conforming single-epoch header: latitude rows 5 and 0 (spacing -5),
longitudes -10..10 step 5, fixed altitude 350 km, exponent -1. -/
def c1header : Header :=
  { version := ⟨1, 0⟩
    program := none, run_by := none, date := none, license := none, doi := none
    number_of_maps := 1
    epoch_of_first_map := 0, epoch_of_last_map := 0
    reference_system := "GPS", description := none
    mapf := .nofn, map_dimension := 2
    base_radius_km := 6371, sampling_period := 3600
    grid := ⟨⟨5, 0, -5⟩, ⟨-10, 10, 5⟩, ⟨350, 350, 0⟩⟩
    elevation_cutoff := 0, exponent := -1, comments := [] }

/-- A conforming body for c1header: one TEC block with both latitude rows
populated (values 1..5 at latitude 5 and 6..10 at latitude 0). -/
def c1lines : List BodyLine :=
  [.startTecMap, .epochLine 0,
   .gridSpecLine (some ⟨5, 350, ⟨-10, 10, 5⟩⟩),
   .dataLine [.val 1, .val 2, .val 3, .val 4, .val 5],
   .gridSpecLine (some ⟨0, 350, ⟨-10, 10, 5⟩⟩),
   .dataLine [.val 6, .val 7, .val 8, .val 9, .val 10],
   .endTecMap, .endOfFile]

/-- Header for the C2 input: latitude rows 2 and 1 (spacing -1),
longitudes 0..10 step 5, fixed altitude 350 km. -/
def c2header : Header :=
  { c1header with grid := ⟨⟨2, 1, -1⟩, ⟨0, 10, 5⟩, ⟨350, 350, 0⟩⟩ }

/-- Body for c2header: one TEC block whose two latitude rows both carry
three samples. -/
def c2lines : List BodyLine :=
  [.startTecMap, .epochLine 0,
   .gridSpecLine (some ⟨2, 350, ⟨0, 10, 5⟩⟩),
   .dataLine [.val 11, .val 12, .val 13],
   .gridSpecLine (some ⟨1, 350, ⟨0, 10, 5⟩⟩),
   .dataLine [.val 21, .val 22, .val 23],
   .endTecMap, .endOfFile]

/-- Header for the C3 input: a single latitude row, longitudes -10..0
step 5, fixed altitude 350 km. -/
def c3header : Header :=
  { c1header with grid := ⟨⟨1, 1, 0⟩, ⟨-10, 0, 5⟩, ⟨350, 350, 0⟩⟩ }

/-- Body for c3header: one row whose grid spec starts the longitude axis
at -10, with samples 7, 8, 9 for the longitudes -10, -5, 0. -/
def c3lines : List BodyLine :=
  [.startTecMap, .epochLine 0,
   .gridSpecLine (some ⟨1, 350, ⟨-10, 0, 5⟩⟩),
   .dataLine [.val 7, .val 8, .val 9],
   .endTecMap, .endOfFile]

/-- Source: src/src/linspace.rs, struct QuantizedLinspace (an iterator
with a moving ptr). The source field named end is spelled stop as in
Linspace. -/
structure QuantizedLinspace where
  ptr : Quantized
  start : Quantized
  stop : Quantized
  spacing : Quantized
deriving DecidableEq

/-- Source: src/src/linspace.rs, Linspace::quantize: every bound is
auto-scaled independently and the ptr starts at the start. -/
def Linspace.quantize (ls : Linspace) : QuantizedLinspace :=
  ⟨Quantized.auto_scaled ls.start, Quantized.auto_scaled ls.start,
   Quantized.auto_scaled ls.stop, Quantized.auto_scaled ls.spacing⟩

/-- Source: src/src/linspace.rs, the Iterator impl of QuantizedLinspace,
collected to a list: yield while the raw ptr value does not exceed the raw
end value, then advance the raw ptr value by the raw spacing value (the
comparison and the step mix raw values regardless of the exponents, as in
the source). Fuel-bounded. -/
def QuantizedLinspace.toList : Nat → QuantizedLinspace → List Quantized
  | 0, _ => []
  | fuel + 1, q =>
    if q.stop.value < q.ptr.value then []
    else q.ptr :: QuantizedLinspace.toList fuel
      { q with ptr := { q.ptr with value := q.ptr.value + q.spacing.value } }

/-- The epoch enumeration loop behind Header::timeseries, fuel-bounded. -/
def timeseriesLoop : Nat → Rat → Rat → Rat → List Rat
  | 0, _, _, _ => []
  | fuel + 1, t, last, dt =>
    if last < t then []
    else t :: timeseriesLoop fuel (qadd t dt) last dt

/-- Modelled from the spec: Header::timeseries. The file implementing it
is not under src/ (only its callers are); spec section 4.9 says
"timeseries() — enumerate epochs from header's first to last using the
sampling period", which this list realizes inclusively. -/
def Header.timeseries (h : Header) : List Rat :=
  timeseriesLoop FUEL h.epoch_of_first_map h.epoch_of_last_map h.sampling_period

/-- Itertools tuple_windows over a list: all pairs of adjacent elements. -/
def tupleWindows {α : Type} (l : List α) : List (α × α) :=
  l.zip l.tail

/-- Source: src/src/lib.rs, struct IONEX. The optional filename attributes
are not modelled: no claim below involves them and their module is not
under src/. -/
structure IONEX where
  header : Header
  record : Record
  comments : List String
deriving DecidableEq

/-- Source: src/src/lib.rs, IONEX::map_cell_iter: the product of the
header timeseries with the adjacent pairs of the quantized latitude and
longitude axes; each candidate cell looks its four corners up in the
record and is skipped when any lookup fails. The south-east and the
south-west lookups both use the (lat2, long2) key, and the north-east
point pairs long1 with lat1, exactly as in the source. -/
def IONEX.map_cell_iter (x : IONEX) : List MapCell :=
  let lat_pairs := tupleWindows (QuantizedLinspace.toList FUEL x.header.grid.latitude.quantize)
  let long_pairs := tupleWindows (QuantizedLinspace.toList FUEL x.header.grid.longitude.quantize)
  let fixed_altitude_q := Quantized.auto_scaled x.header.grid.altitude.start
  x.header.timeseries.flatMap (fun epoch =>
    lat_pairs.flatMap (fun lp =>
      long_pairs.filterMap (fun gp => do
        let lat1 := lp.1
        let lat2 := lp.2
        let long1 := gp.1
        let long2 := gp.2
        let northeast ← x.record.get ⟨epoch,
          QuantizedCoordinates.from_quantized lat1 long1 fixed_altitude_q⟩
        let northwest ← x.record.get ⟨epoch,
          QuantizedCoordinates.from_quantized lat1 long2 fixed_altitude_q⟩
        let southeast ← x.record.get ⟨epoch,
          QuantizedCoordinates.from_quantized lat2 long2 fixed_altitude_q⟩
        let southwest ← x.record.get ⟨epoch,
          QuantizedCoordinates.from_quantized lat2 long2 fixed_altitude_q⟩
        some { epoch := epoch
               north_east := ⟨northeast, (long1.real_value, lat1.real_value)⟩
               north_west := ⟨northwest, (long2.real_value, lat1.real_value)⟩
               south_east := ⟨southeast, (long1.real_value, lat2.real_value)⟩
               south_west := ⟨southwest, (long2.real_value, lat2.real_value)⟩ })))

/-- Source: src/src/record/mod.rs, Record::from_map_cells: each cell
contributes its four corner keys (quantized from the decimal-degree corner
points and the fixed altitude), deduplicated through the map, inserted in
the order north-east, north-west, south-west, south-east. -/
def Record.from_map_cells (slice : List MapCell) (fixed_altitude_km : Rat) : Record :=
  slice.foldl (fun map cell =>
    let ne_key := Key.from_decimal_degrees_km cell.epoch
      cell.north_east.point.2 cell.north_east.point.1 fixed_altitude_km
    let nw_key := Key.from_decimal_degrees_km cell.epoch
      cell.north_west.point.2 cell.north_west.point.1 fixed_altitude_km
    let sw_key := Key.from_decimal_degrees_km cell.epoch
      cell.south_west.point.2 cell.south_west.point.1 fixed_altitude_km
    let se_key := Key.from_decimal_degrees_km cell.epoch
      cell.south_east.point.2 cell.south_east.point.1 fixed_altitude_km
    (((map.insert ne_key cell.north_east.tec).insert nw_key cell.north_west.tec).insert
      sw_key cell.south_west.tec).insert se_key cell.south_east.tec) Record.empty

/-- A geo polygon, reduced to the coordinates of its exterior ring. -/
abbrev Polygon := List Point

/-- Model of geo Polygon::bounding_rect: none for an empty exterior ring,
otherwise the min-max rectangle of the coordinates. -/
def Polygon.bounding_rect : Polygon → Option Rect
  | [] => none
  | p :: ps => some (ps.foldl (fun r c =>
      ⟨(min r.rmin.1 c.1, min r.rmin.2 c.2), (max r.rmax.1 c.1, max r.rmax.2 c.2)⟩)
      ⟨p, p⟩)

/-- Source: src/src/lib.rs, IONEX::to_regional_ionex: fail with
UndefinedBoundaries when the polygon has no bounding rectangle; otherwise
keep the cells of map_cell_iter for which cell.contains(roi-rectangle)
holds, rebuild the record from them at the header altitude, and clip the
header grid bounds (the comparisons are copied from the source). The
comments of the result are the default empty list and the filename
attributes are not modelled. -/
def IONEX.to_regional_ionex (x : IONEX) (roi : Polygon) : Except Error IONEX :=
  match roi.bounding_rect with
  | none => .error .UndefinedBoundaries
  | some boundaries =>
    let cells := x.map_cell_iter.filter (fun cell => cell.contains_rect boundaries)
    let record := Record.from_map_cells cells x.header.grid.altitude.start
    let header := { x.header with grid := { x.header.grid with
      latitude := { x.header.grid.latitude with
        start := min x.header.grid.latitude.start boundaries.rmax.2
        stop := max x.header.grid.latitude.stop boundaries.rmin.2 }
      longitude := { x.header.grid.longitude with
        start := max x.header.grid.longitude.start boundaries.rmin.1
        stop := min x.header.grid.longitude.stop boundaries.rmax.1 } } }
    .ok { header := header, record := record, comments := [] }

/-- Header for the C6 input: an ascending 3-point latitude and longitude
axis 0.5, 1.0, 1.5 (spacing 0.5), fixed altitude, a single epoch. -/
def c6header : Header :=
  { c1header with
    grid := ⟨⟨Rat.divInt 1 2, Rat.divInt 3 2, Rat.divInt 1 2⟩,
             ⟨Rat.divInt 1 2, Rat.divInt 3 2, Rat.divInt 1 2⟩,
             ⟨350, 350, 0⟩⟩ }

/-- The grid coordinates of c6header. -/
def c6coords : List Rat := [Rat.divInt 1 2, 1, Rat.divInt 3 2]

/-- A record carrying 1 TECu on each of the nine grid points of c6header
at epoch 0. -/
def c6record : Record :=
  c6coords.flatMap (fun lat => c6coords.map (fun lon =>
    (Key.from_decimal_degrees_km 0 lat lon 350, TEC.from_tecu 1)))

/-- The concrete C6 IONEX value. -/
def c6ionex : IONEX := ⟨c6header, c6record, []⟩

/-- A polygon whose bounding rectangle (0,0)-(2,2) strictly contains every
cell of c6ionex. -/
def c6poly : Polygon := [(0, 0), (2, 0), (2, 2), (0, 2)]

/-- List-of-characters substring search backing the FILE MERGE probe. -/
def containsSub (s sub : String) : Bool :=
  s.data.tails.any (fun t => sub.data.isPrefixOf t)

/-- Source: src/src/lib.rs, IONEX::is_merged: some header comment contains
the text FILE MERGE. -/
def IONEX.is_merged (x : IONEX) : Bool :=
  x.header.comments.any (fun c => containsSub c "FILE MERGE")

/-- The comment-deduplication loop shared by the merge impls: push each
new comment not already present. -/
def dedupPush (base extra : List String) : List String :=
  extra.foldl (fun acc c => if acc.contains c then acc else acc ++ [c]) base

/-- Source: src/src/header/qc.rs, Header::merge_mut: minimum version,
right-filled optional production fields, concatenated descriptions,
minimum first epoch, maximum last epoch, minimum sampling period, maximum
elevation cutoff, deduplicated comments followed by a FILE MERGE comment
when absent; the reference system, mapping function, dimension and grid
are left unchanged (their mismatch handling is TODO in the source). -/
def Header.merge_mut (a b : Header) : Header :=
  { a with
    version := Version.minOrd a.version b.version
    program := match a.program with | none => b.program | some p => some p
    run_by := match a.run_by with | none => b.run_by | some p => some p
    date := match a.date with | none => b.date | some p => some p
    license := match a.license with | none => b.license | some p => some p
    doi := match a.doi with | none => b.doi | some p => some p
    description := match a.description, b.description with
      | some d, some r => some (d ++ r)
      | some d, none => some d
      | none, r => r
    epoch_of_first_map := min a.epoch_of_first_map b.epoch_of_first_map
    epoch_of_last_map := max a.epoch_of_last_map b.epoch_of_last_map
    sampling_period := min a.sampling_period b.sampling_period
    elevation_cutoff :=
      if a.elevation_cutoff < b.elevation_cutoff then b.elevation_cutoff
      else a.elevation_cutoff
    comments :=
      let cs := dedupPush a.comments b.comments
      if cs.contains "FILE MERGE" then cs else cs ++ ["FILE MERGE"] }

/-- Source: src/src/record/qc.rs, Record::merge_mut: each right entry
either fills the RMS and height of the entry already present under its
key (only where the left side has none), or is inserted. -/
def Record.merge_mut (a b : Record) : Record :=
  b.foldl (fun acc e =>
    match acc.find? (fun f => Key.btreeEq f.1 e.1) with
    | some _ =>
      acc.map (fun f => if Key.btreeEq f.1 e.1 then
          (f.1, { f.2 with
            rms := match f.2.rms with | none => e.2.rms | some r => some r
            height := match f.2.height with | none => e.2.height | some h => some h })
        else f)
    | none => acc ++ [(e.1, e.2)]) a

/-- Source: src/src/lib.rs, the Merge impl for IONEX: merge the headers,
merge the records, and deduplicate the file-level comments (the optional
attributes are not modelled; the source merge never fails). -/
def IONEX.merge (x y : IONEX) : IONEX :=
  { header := Header.merge_mut x.header y.header
    record := Record.merge_mut x.record y.record
    comments := dedupPush x.comments y.comments }

/-- Concrete IONEX whose header carries a description, the C9
counterexample input. -/
def c9ionex : IONEX :=
  ⟨{ c1header with description := some "A" },
   [(Key.from_decimal_degrees_km 0 0 0 350, TEC.from_tecu 1)],
   ["file comment"]⟩

/-- Concrete IONEX without description and without a FILE MERGE comment,
the C9 witness input. -/
def c9okionex : IONEX :=
  ⟨{ c1header with comments := ["CODE MODEL"] },
   [(Key.from_decimal_degrees_km 0 0 0 350, TEC.from_tecu 1)],
   ["file comment"]⟩

theorem qadd_eq (a b : Rat) : qadd a b = a + b := by
  have ha : ((a.den : Rat)) ≠ 0 := by exact_mod_cast a.den_ne_zero
  have hb : ((b.den : Rat)) ≠ 0 := by exact_mod_cast b.den_ne_zero
  have ea : ((a.num : Rat)) = a * a.den := (div_eq_iff ha).1 (Rat.num_div_den a)
  have eb : ((b.num : Rat)) = b * b.den := (div_eq_iff hb).1 (Rat.num_div_den b)
  rw [qadd, Rat.mkRat_eq_divInt, Rat.divInt_eq_div]
  push_cast
  rw [div_eq_iff (mul_ne_zero ha hb), ea, eb]
  ring

theorem qmul_eq (a b : Rat) : qmul a b = a * b := by
  have ha : ((a.den : Rat)) ≠ 0 := by exact_mod_cast a.den_ne_zero
  have hb : ((b.den : Rat)) ≠ 0 := by exact_mod_cast b.den_ne_zero
  have ea : ((a.num : Rat)) = a * a.den := (div_eq_iff ha).1 (Rat.num_div_den a)
  have eb : ((b.num : Rat)) = b * b.den := (div_eq_iff hb).1 (Rat.num_div_den b)
  rw [qmul, Rat.mkRat_eq_divInt, Rat.divInt_eq_div]
  push_cast
  rw [div_eq_iff (mul_ne_zero ha hb), ea, eb]
  ring

theorem qneg_eq (a : Rat) : qneg a = -a := by
  have ha : ((a.den : Rat)) ≠ 0 := by exact_mod_cast a.den_ne_zero
  have ea : ((a.num : Rat)) = a * a.den := (div_eq_iff ha).1 (Rat.num_div_den a)
  rw [qneg, Rat.mkRat_eq_divInt, Rat.divInt_eq_div]
  push_cast
  rw [div_eq_iff ha, ea]
  ring

theorem qsub_eq (a b : Rat) : qsub a b = a - b := by
  rw [qsub, qadd_eq, qneg_eq, sub_eq_add_neg]

theorem qdiv_eq (a b : Rat) : qdiv a b = a / b := by
  have ha : ((a.den : Rat)) ≠ 0 := by exact_mod_cast a.den_ne_zero
  have hb : ((b.den : Rat)) ≠ 0 := by exact_mod_cast b.den_ne_zero
  have ea : ((a.num : Rat)) = a * a.den := (div_eq_iff ha).1 (Rat.num_div_den a)
  have eb : ((b.num : Rat)) = b * b.den := (div_eq_iff hb).1 (Rat.num_div_den b)
  rw [qdiv, Rat.divInt_eq_div]
  push_cast
  rcases eq_or_ne b 0 with rfl | hb0
  · simp
  · have hbn : ((b.num : Rat)) ≠ 0 := by exact_mod_cast Rat.num_ne_zero.mpr hb0
    rw [div_eq_div_iff (mul_ne_zero ha hbn) hb0, ea, eb]
    ring

theorem findExponentLoop_den (f : Nat) (x : Rat) (n : Nat)
    (h : findExponentLoop f x = some n) : (x * 10 ^ n).den = 1 := by
  induction f generalizing x n with
  | zero => simp [findExponentLoop] at h
  | succ f ih =>
    rw [findExponentLoop] at h
    by_cases hden : x.den = 1
    · simp only [hden, if_true, Option.some.injEq] at h
      subst h
      simpa using hden
    · simp only [hden, if_false, Option.map_eq_some'] at h
      obtain ⟨m, hm, hmn⟩ := h
      have hrec := ih (qmul x 10) m hm
      rw [qmul_eq] at hrec
      have hx : x * 10 ^ (m + 1) = x * 10 * 10 ^ m := by ring
      rw [← hmn, hx]
      exact hrec

theorem wrap8_of_le (n : Nat) (h : n ≤ 127) : wrap8 n = n := by
  unfold wrap8
  omega

theorem qround_intCast (m : Int) : qround ((m : Int) : Rat) = m := by
  have hhalf : (Rat.divInt 1 2) = (1 : Rat) / 2 := by
    rw [Rat.divInt_eq_div]
    norm_num
  unfold qround
  by_cases hm : (0 : Rat) ≤ (m : Rat)
  · rw [if_pos hm, qadd_eq, hhalf, Int.floor_int_add]
    norm_num
  · rw [if_neg hm, qadd_eq, qneg_eq, hhalf]
    have hneg : -((m : Rat)) = ((-m : Int) : Rat) := by push_cast; ring
    rw [hneg, Int.floor_int_add]
    norm_num

theorem den_one_intCast (x : Rat) (h : x.den = 1) : ((x.num : Int) : Rat) = x := by
  have := Rat.num_div_den x
  rw [h] at this
  simpa using this

theorem pow10_natCast (k : Nat) : pow10 (k : Int) = (10 : Rat) ^ k := by
  unfold pow10
  rw [if_pos (by positivity)]
  push_cast
  norm_num

theorem dedupPush_of_mem (base extra : List String)
    (h : ∀ c ∈ extra, base.contains c = true) : dedupPush base extra = base := by
  induction extra with
  | nil => rfl
  | cons c cs ih =>
    unfold dedupPush
    rw [List.foldl_cons, if_pos (h c (List.mem_cons_self c cs))]
    exact ih (fun d hd => h d (List.mem_cons_of_mem c hd))

theorem foldl_fixed {α β : Type} (g : β → α → β) (l : List α) (acc : β)
    (h : ∀ e ∈ l, g acc e = acc) : l.foldl g acc = acc := by
  induction l with
  | nil => rfl
  | cons e es ih =>
    rw [List.foldl_cons, h e (List.mem_cons_self e es)]
    exact ih (fun x hx => h x (List.mem_cons_of_mem e hx))

theorem btreeEq_refl (k : Key) : Key.btreeEq k k = true := by
  simp [Key.btreeEq, Quantized.eqv]

theorem map_id_of_fixed {α : Type} (g : α → α) (l : List α)
    (h : ∀ x ∈ l, g x = x) : l.map g = l := by
  induction l with
  | nil => rfl
  | cons e es ih =>
    rw [List.map_cons, h e (List.mem_cons_self e es)]
    rw [ih (fun x hx => h x (List.mem_cons_of_mem e hx))]

theorem find_self_of_pairwise (r : Record) (e : Key × TEC)
    (hkeys : r.Pairwise (fun e f => Key.btreeEq e.1 f.1 = false ∧ Key.btreeEq f.1 e.1 = false))
    (he : e ∈ r) : r.find? (fun f => Key.btreeEq f.1 e.1) = some e := by
  induction r with
  | nil => cases he
  | cons a as ih =>
    rw [List.pairwise_cons] at hkeys
    rcases List.mem_cons.1 he with rfl | hmem
    · exact List.find?_cons_of_pos _ (btreeEq_refl _)
    · have hne : Key.btreeEq a.1 e.1 = false := (hkeys.1 e hmem).1
      rw [List.find?_cons_of_neg _ (by simp [hne])]
      exact ih hkeys.2 hmem

theorem record_merge_self (r : Record)
    (hkeys : r.Pairwise (fun e f => Key.btreeEq e.1 f.1 = false ∧ Key.btreeEq f.1 e.1 = false)) :
    Record.merge_mut r r = r := by
  unfold Record.merge_mut
  apply foldl_fixed
  intro e he
  rw [find_self_of_pairwise r e hkeys he]
  apply map_id_of_fixed
  intro f hf
  by_cases hkf : Key.btreeEq f.1 e.1 = true
  · have hfe : f = e := by
      by_contra hne
      have hsym : Symmetric (fun e f : Key × TEC =>
          Key.btreeEq e.1 f.1 = false ∧ Key.btreeEq f.1 e.1 = false) :=
        fun a b h => ⟨h.2, h.1⟩
      have hrel := hkeys.forall hsym hf he hne
      rw [hrel.1] at hkf
      cases hkf
    subst hfe
    rw [if_pos hkf]
    obtain ⟨k1, t1⟩ := f
    obtain ⟨tc, rm, hg⟩ := t1
    cases rm <;> cases hg <;> rfl
  · rw [if_neg (by simpa using hkf)]

theorem version_minOrd_self (v : Version) : Version.minOrd v v = v := by
  simp [Version.minOrd]

/-- C1. The specification claims that parsing, formatting and re-parsing a
conforming IONEX byte stream reproduces the first parse exactly (record,
comments and header identical). On the concrete conforming file c1lines
(two populated latitude rows over the c1header grid) the first parse
yields a record of three entries, the reconstruction of the formatted
output yields a record of a single entry, and the two records differ: the
round trip claimed by the spec fails on the code, because the body parser
discards every latitude row but the last and starts its longitude cursor
at zero. -/
theorem claim_C1_format_parse_roundtrip_fails :
    (parse_record c1header c1lines).1.length = 3
    ∧ (parse_record c1header
        (Record.format c1header (parse_record c1header c1lines).1)).1.length = 1
    ∧ (parse_record c1header
        (Record.format c1header (parse_record c1header c1lines).1)).1
        ≠ (parse_record c1header c1lines).1 := by decide

/-- C2. The specification claims that a LAT/LON1/LON2/DLON/H line flushes
the tokens buffered since the previous grid-spec into the record before
the state is updated, so that every latitude row contributes keys. In the
code the grid-spec branch clears the token buffer without flushing it: on
c2lines (rows at latitudes 2 and 1, three samples each) the parsed record
holds exactly the three entries of the final row at latitude 1 and no
entry at latitude 2. -/
theorem claim_C2_gridspec_line_discards_previous_row :
    (parse_record c2header c2lines).1.length = 3
    ∧ ((parse_record c2header c2lines).1.all
        (fun en => en.1.coordinates.lat_ddeg.real_value == 1)) = true
    ∧ ((parse_record c2header c2lines).1.any
        (fun en => en.1.coordinates.lat_ddeg.real_value == 2)) = false := by decide

/-- C3. The specification claims the flush starts the longitude cursor at
the grid-spec lon_start. The code resets long_ptr to 0.0 instead: on
c3lines, whose grid spec declares the longitude axis -10..0, the first
token is keyed at longitude 0 (and the cursor then exceeds lon_end, so the
remaining tokens are dropped); no key at the declared lon_start -10
exists. -/
theorem claim_C3_cursor_starts_at_zero_not_lon1 :
    (parse_record c3header c3lines).1 =
      [(⟨0, ⟨⟨0, 1⟩, ⟨0, 0⟩, ⟨0, 350⟩⟩⟩, TEC.from_quantized 7 (-1))]
    ∧ ((parse_record c3header c3lines).1.any
        (fun en => en.1.coordinates.long_ddeg.real_value == -10)) = false := by decide

/-- C4. The specification states the bilinear formula
(1-p_y)(1-p_x) SW + (1-p_y) p_x SE + p_y (1-p_x) NW + p_y p_x NE. The code
weights SE by p_y (1-p_x) and NW by p_x (1-p_y), with the two coefficients
swapped: on the unit cell with SE = 1 and the other corners 0, the code
returns 1/16 TECu at the interior point (3/4, 1/4) and 1/100 at
(9/10, 1/10) where the specified formula gives 9/16 and 81/100 —
approaching the SE corner, the code tends to 0 where the formula tends to
the corner value 1. The corner itself lies on the cell boundary, which the
interior-based geo containment rejects, so the code fails there with
OutsideSpatialBoundaries, exactly as it does on a point outside the
cell. -/
theorem claim_C4_bilinear_weights_swapped :
    MapCell.spatial_tec_interp seGradientCell (Rat.divInt 3 4, Rat.divInt 1 4)
      = .ok (TEC.from_tecu (Rat.divInt 1 16))
    ∧ spec_bilinear_tecu seGradientCell (Rat.divInt 3 4, Rat.divInt 1 4) = Rat.divInt 9 16
    ∧ (TEC.from_tecu (Rat.divInt 1 16)).tecu_real ≠ Rat.divInt 9 16
    ∧ MapCell.spatial_tec_interp seGradientCell (Rat.divInt 9 10, Rat.divInt 1 10)
      = .ok (TEC.from_tecu (Rat.divInt 1 100))
    ∧ spec_bilinear_tecu seGradientCell (Rat.divInt 9 10, Rat.divInt 1 10)
        = Rat.divInt 81 100
    ∧ MapCell.spatial_tec_interp seGradientCell (1, 0)
        = .error Error.OutsideSpatialBoundaries
    ∧ MapCell.spatial_tec_interp seGradientCell (2, Rat.divInt 1 2)
        = .error Error.OutsideSpatialBoundaries := by decide

/-- C5. For two cells at epochs t0 strictly before t1 and a point whose
spatial interpolation succeeds on both, an epoch inside the interval
[t0, t1) yields the forward linear interpolation in time of the two
spatial interpolations; when both spatial interpolations carry the same
TECu the result is exactly that value re-quantized; any epoch outside
[t0, t1) fails with TemporalMismatch. -/
theorem claim_C5_temporal_interpolation (c0 c1 : MapCell) (e : Rat) (p : Point)
    (s0 s1 : TEC)
    (hlt : c0.epoch < c1.epoch)
    (hs0 : c0.spatial_tec_interp p = .ok s0)
    (hs1 : c1.spatial_tec_interp p = .ok s1)
    (h1 : c0.epoch ≤ e) (h2 : e < c1.epoch) :
    (c0.temporal_spatial_tec_interp e p c1 =
      .ok (TEC.from_tecu (qadd
        (qmul (qdiv (qsub c1.epoch e) (qsub c1.epoch c0.epoch)) s0.tecu_real)
        (qmul (qdiv (qsub e c0.epoch) (qsub c1.epoch c0.epoch)) s1.tecu_real))))
    ∧ (s0.tecu_real = s1.tecu_real →
        c0.temporal_spatial_tec_interp e p c1 = .ok (TEC.from_tecu s0.tecu_real))
    ∧ (∀ t : Rat, ¬(c0.epoch ≤ t ∧ t < c1.epoch) →
        c0.temporal_spatial_tec_interp t p c1 = .error Error.TemporalMismatch) := by
  have hgen : ∀ t : Rat, c0.temporal_spatial_tec_interp t p c1 =
      (if c0.epoch ≤ t ∧ t < c1.epoch then
        .ok (TEC.from_tecu (qadd
          (qmul (qdiv (qsub c1.epoch t) (qsub c1.epoch c0.epoch)) s0.tecu_real)
          (qmul (qdiv (qsub t c0.epoch) (qsub c1.epoch c0.epoch)) s1.tecu_real)))
      else if c1.epoch ≤ t ∧ t < c0.epoch then
        .ok (TEC.from_tecu (qadd
          (qmul (qdiv (qsub c0.epoch t) (qsub c0.epoch c1.epoch)) s1.tecu_real)
          (qmul (qdiv (qsub t c1.epoch) (qsub c0.epoch c1.epoch)) s0.tecu_real)))
      else .error Error.TemporalMismatch) := by
    intro t
    unfold MapCell.temporal_spatial_tec_interp
    rw [hs0, hs1]
    rfl
  have hdt : qsub c1.epoch c0.epoch ≠ 0 := by
    rw [qsub_eq]
    exact sub_ne_zero.2 (ne_of_gt hlt)
  refine ⟨?_, ?_, ?_⟩
  · rw [hgen e, if_pos ⟨h1, h2⟩]
  · intro hTT
    rw [hgen e, if_pos ⟨h1, h2⟩]
    congr 1
    rw [hTT]
    congr 1
    rw [qadd_eq, qmul_eq, qmul_eq, qdiv_eq, qdiv_eq, qsub_eq, qsub_eq, qsub_eq]
    have hne : c1.epoch - c0.epoch ≠ 0 := sub_ne_zero.2 (ne_of_gt hlt)
    field_simp
    ring
  · intro t ht
    rw [hgen t, if_neg ht, if_neg ?_]
    rintro ⟨ht1, ht2⟩
    exact absurd (lt_trans (lt_of_le_of_lt ht1 ht2) hlt) (lt_irrefl _)

/-- Witness for C5: two synchronous unit cells carrying 1 TECu at epochs 0
and 30; at the central point, the interpolation at epoch 15 returns 1 TECu
and the interpolation at epoch 45 fails with TemporalMismatch. -/
theorem claim_C5_temporal_interpolation_witness :
    MapCell.temporal_spatial_tec_interp (onesCell 0) 15
      (Rat.divInt 1 2, Rat.divInt 1 2) (onesCell 30) = .ok (TEC.from_tecu 1)
    ∧ MapCell.temporal_spatial_tec_interp (onesCell 0) 45
      (Rat.divInt 1 2, Rat.divInt 1 2) (onesCell 30)
      = .error Error.TemporalMismatch := by
  have h := claim_C5_temporal_interpolation (onesCell 0) (onesCell 30) 15
    (Rat.divInt 1 2, Rat.divInt 1 2) (TEC.from_tecu 1) (TEC.from_tecu 1)
    (by decide) (by decide) (by decide) (by decide) (by decide)
  constructor
  · have h2 := h.2.1 rfl
    have hone : (TEC.from_tecu (1 : Rat)).tecu_real = 1 := by decide
    rw [hone] at h2
    exact h2
  · exact h.2.2 45 (by decide)

/-- C6. The specification claims to_regional_ionex keeps exactly the cells
whose bounding rectangle lies inside the polygon bounding rectangle. The
code filters with cell.contains(roi) — the reverse containment — keeping
only cells that wrap the whole polygon rectangle: on c6ionex (a 2 by 2
cell grid) and a polygon with bounding rectangle (0,0)-(2,2), every one of
the four cells lies strictly inside the polygon rectangle, yet the rebuilt
record is empty. The error path holds: an empty polygon (no bounding
rectangle) fails with UndefinedBoundaries. -/
theorem claim_C6_regional_filter_reversed :
    (IONEX.to_regional_ionex c6ionex c6poly).map (fun r => r.record)
      = .ok (Record.empty)
    ∧ c6ionex.map_cell_iter.length = 4
    ∧ (c6ionex.map_cell_iter.all
        (fun cell => Rect.contains_rect ⟨(0, 0), (2, 2)⟩ cell.bounding_rect_degrees))
        = true
    ∧ Polygon.bounding_rect c6poly = some ⟨(0, 0), (2, 2)⟩
    ∧ IONEX.to_regional_ionex c6ionex [] = .error Error.UndefinedBoundaries := by decide

/-- Counterexample to C7: the claim says a zero factor fails with
NegativeStretchFactor, but 0.0 has positive sign in Rust, passes the
is_sign_negative guard, and both operations succeed, zeroing the
dimensions respectively the spacing. -/
theorem claim_C7_zero_factor_succeeds :
    Linspace.stretch_mut ⟨-180, 180, 5⟩ 0 = .ok ⟨0, 0, 5⟩
    ∧ Linspace.resample_mut ⟨-180, 180, 5⟩ 0 = .ok ⟨-180, 180, 0⟩ := by decide

/-- C7 as amended: for positive factors stretch_mut scales start and end
preserving the spacing and resample_mut scales the spacing preserving
start and end; strictly negative factors fail with NegativeStretchFactor
(leaving the linspace to the caller unchanged); the factor 0 (positive
sign in Rust) succeeds and zeroes the scaled fields. -/
theorem claim_C7_amended (ls : Linspace) (f : Rat) :
    (0 < f →
      Linspace.stretch_mut ls f = .ok ⟨ls.start * f, ls.stop * f, ls.spacing⟩
      ∧ Linspace.resample_mut ls f = .ok ⟨ls.start, ls.stop, ls.spacing * f⟩)
    ∧ (f < 0 →
      Linspace.stretch_mut ls f = .error Error.NegativeStretchFactor
      ∧ Linspace.resample_mut ls f = .error Error.NegativeStretchFactor)
    ∧ (f = 0 →
      Linspace.stretch_mut ls f = .ok ⟨0, 0, ls.spacing⟩
      ∧ Linspace.resample_mut ls f = .ok ⟨ls.start, ls.stop, 0⟩) := by
  refine ⟨?_, ?_, ?_⟩
  · intro hf
    have hnn : ¬ f < 0 := not_lt.2 hf.le
    constructor
    · simp only [Linspace.stretch_mut, if_neg hnn, qmul_eq]
    · simp only [Linspace.resample_mut, if_neg hnn, qmul_eq]
  · intro hf
    constructor
    · simp only [Linspace.stretch_mut, if_pos hf]
    · simp only [Linspace.resample_mut, if_pos hf]
  · intro hf
    subst hf
    have hnn : ¬ (0 : Rat) < 0 := lt_irrefl 0
    constructor
    · simp only [Linspace.stretch_mut, if_neg hnn, qmul_eq, mul_zero]
    · simp only [Linspace.resample_mut, if_neg hnn, qmul_eq, mul_zero]

/-- Witness for the amended C7 at the concrete linspace -180..180 step 5:
stretching by 2 doubles the bounds and keeps the spacing, a negative
factor errors, and resampling by 0 zeroes the spacing only. -/
theorem claim_C7_amended_witness :
    Linspace.stretch_mut ⟨-180, 180, 5⟩ 2 = .ok ⟨-360, 360, 5⟩
    ∧ Linspace.stretch_mut ⟨-180, 180, 5⟩ (-1) = .error Error.NegativeStretchFactor
    ∧ Linspace.resample_mut ⟨-180, 180, 5⟩ 0 = .ok ⟨-180, 180, 0⟩ := by
  refine ⟨?_, ?_, ?_⟩
  · have h := ((claim_C7_amended ⟨-180, 180, 5⟩ 2).1 (by norm_num)).1
    rw [h]
    norm_num
  · exact ((claim_C7_amended ⟨-180, 180, 5⟩ (-1)).2.1 (by norm_num)).1
  · exact ((claim_C7_amended ⟨-180, 180, 5⟩ 0).2.2 rfl).2

/-- Counterexample to C8: the pair with value 10 and exponent 1 and the
pair with value 1 and exponent 0 decode to the same real value (1.0) and
compare equal, yet the derived Hash feeds the hasher different field data,
so the equal-values-hash-equal half of the claim is false. -/
theorem claim_C8_equal_values_hash_differently :
    Quantized.eqv ⟨1, 10⟩ ⟨0, 1⟩ = true
    ∧ Quantized.hashData ⟨1, 10⟩ ≠ Quantized.hashData ⟨0, 1⟩ := by decide

/-- C8 as amended: equality of Quantized values does hold exactly on the
decoded real values (the PartialEq impl normalizes), but the derived Hash
is computed from the raw fields, so two values are guaranteed equal hash
data exactly when the raw (exponent, value) pairs coincide — hence equal
values under different exponents may hash differently. -/
theorem claim_C8_amended (a b : Quantized) :
    (Quantized.eqv a b = true ↔ a.real_value = b.real_value)
    ∧ (Quantized.hashData a = Quantized.hashData b ↔ a = b) := by
  constructor
  · simp [Quantized.eqv]
  · constructor
    · intro h
      cases a
      cases b
      simp only [Quantized.hashData, Prod.mk.injEq] at h
      simp [Quantized.mk.injEq, h.1, h.2]
    · rintro rfl
      rfl

/-- Counterexample to C9: on an IONEX whose header carries a description,
self-merge concatenates the description with itself, so the merged header
differs from the original header by more than the appended FILE MERGE
comment. -/
theorem claim_C9_self_merge_description_doubled :
    (IONEX.merge c9ionex c9ionex).header ≠
      { c9ionex.header with comments := c9ionex.header.comments ++ ["FILE MERGE"] } := by
  decide

/-- C9 as amended: for an IONEX whose header has no description, whose
header comments do not already contain the FILE MERGE comment, and whose
record keys are pairwise distinct, self-merge succeeds and preserves the
record and the file comments, the merged header equals the original with
exactly one FILE MERGE comment appended, and is_merged holds on the
result. -/
theorem claim_C9_amended (x : IONEX)
    (hdesc : x.header.description = none)
    (hfm : x.header.comments.contains "FILE MERGE" = false)
    (hkeys : x.record.Pairwise
      (fun e f => Key.btreeEq e.1 f.1 = false ∧ Key.btreeEq f.1 e.1 = false)) :
    (IONEX.merge x x).record = x.record
    ∧ (IONEX.merge x x).header =
        { x.header with comments := x.header.comments ++ ["FILE MERGE"] }
    ∧ (IONEX.merge x x).comments = x.comments
    ∧ (IONEX.merge x x).is_merged = true := by
  obtain ⟨hdr, rec, comm⟩ := x
  obtain ⟨ver, prog, runby, date, lic, doi, nmaps, e1, e2, refs, desc, mapf, mdim,
    brad, samp, grid, elev, expo, comms⟩ := hdr
  simp only at hdesc hfm hkeys
  subst hdesc
  have hded : dedupPush comms comms = comms :=
    dedupPush_of_mem comms comms (fun c hc => List.elem_eq_true_of_mem hc)
  have hdedc : dedupPush comm comm = comm :=
    dedupPush_of_mem comm comm (fun c hc => List.elem_eq_true_of_mem hc)
  have hhdr : Header.merge_mut
      ⟨ver, prog, runby, date, lic, doi, nmaps, e1, e2, refs, none, mapf, mdim,
        brad, samp, grid, elev, expo, comms⟩
      ⟨ver, prog, runby, date, lic, doi, nmaps, e1, e2, refs, none, mapf, mdim,
        brad, samp, grid, elev, expo, comms⟩ =
      ⟨ver, prog, runby, date, lic, doi, nmaps, e1, e2, refs, none, mapf, mdim,
        brad, samp, grid, elev, expo, comms ++ ["FILE MERGE"]⟩ := by
    simp only [Header.merge_mut, version_minOrd_self, min_self, max_self, hded, hfm,
      lt_irrefl, if_false, Bool.false_eq_true]
    cases prog <;> cases runby <;> cases date <;> cases lic <;> cases doi <;> rfl
  refine ⟨record_merge_self rec hkeys, ?_, hdedc, ?_⟩
  · exact hhdr
  · show ((IONEX.merge _ _).header.comments.any
      (fun c => containsSub c "FILE MERGE")) = true
    have hcm : (IONEX.merge
        ⟨⟨ver, prog, runby, date, lic, doi, nmaps, e1, e2, refs, none, mapf, mdim,
          brad, samp, grid, elev, expo, comms⟩, rec, comm⟩
        ⟨⟨ver, prog, runby, date, lic, doi, nmaps, e1, e2, refs, none, mapf, mdim,
          brad, samp, grid, elev, expo, comms⟩, rec, comm⟩).header.comments =
        comms ++ ["FILE MERGE"] := by
      show (Header.merge_mut _ _).comments = _
      rw [hhdr]
    rw [hcm, List.any_append]
    have : containsSub "FILE MERGE" "FILE MERGE" = true := by decide
    simp [this]

/-- Witness for the amended C9 on the concrete c9okionex value. -/
theorem claim_C9_amended_witness :
    (IONEX.merge c9okionex c9okionex).record = c9okionex.record
    ∧ (IONEX.merge c9okionex c9okionex).header =
        { c9okionex.header with
          comments := c9okionex.header.comments ++ ["FILE MERGE"] }
    ∧ (IONEX.merge c9okionex c9okionex).comments = c9okionex.comments
    ∧ (IONEX.merge c9okionex c9okionex).is_merged = true :=
  claim_C9_amended c9okionex rfl (by decide) (List.pairwise_singleton _ _)

/-- Each exact multiplication by ten of a normal-range double keeps the
rounded mantissa in the normal range and raises the binary exponent by at
least three. -/
theorem mulTen_bounds (x : F64) (hm1 : 2 ^ 52 ≤ x.m) (hm2 : x.m < 2 ^ 53) :
    2 ^ 52 ≤ (mulTen x).m ∧ (mulTen x).m < 2 ^ 53 ∧ x.e + 3 ≤ (mulTen x).e := by
  simp only [mulTen, beq_iff_eq]
  split_ifs <;> simp_all <;> omega

/-- Totality of the f64 scaling loop on normal-range doubles: with fuel
exceeding a third of the negated binary exponent the loop reaches an
integer, since the exponent rises by at least three per step and any
double with non-negative binary exponent is integral. -/
theorem loopF64_some : ∀ (fuel : Nat) (x : F64), 2 ^ 52 ≤ x.m → x.m < 2 ^ 53 →
    -(3 * (fuel : Int)) ≤ x.e → ∃ k, findExponentLoopF64 (fuel + 1) x = some k := by
  intro fuel
  induction fuel with
  | zero =>
    intro x hm1 hm2 he
    refine ⟨0, ?_⟩
    have hint : isIntF64 x = true := by
      simp only [isIntF64, Bool.or_eq_true, decide_eq_true_eq]
      left
      simpa using he
    simp [findExponentLoopF64, hint]
  | succ f ih =>
    intro x hm1 hm2 he
    by_cases hint : isIntF64 x = true
    · exact ⟨0, by simp [findExponentLoopF64, hint]⟩
    · obtain ⟨hb1, hb2, hb3⟩ := mulTen_bounds x hm1 hm2
      have he2 : -(3 * (f : Int)) ≤ (mulTen x).e := by
        push_cast at he ⊢
        omega
      obtain ⟨k, hk⟩ := ih (mulTen x) hb1 hb2 he2
      refine ⟨k + 1, ?_⟩
      show findExponentLoopF64 (f + 1 + 1) x = some (k + 1)
      rw [findExponentLoopF64]
      simp [hint, hk]

/-- Counterexample to C10: the double nearest the decimal 1e-300 is finite,
its scaling loop (run under bit-exact double semantics) reaches an integer
only after 316 multiplications by ten, and 316 does not fit the i8
accumulator: a debug build panics on the increment past 127 and a release
build wraps, find_exponent returning 60 instead of the count 316 — the
accumulator does overflow, contradicting the claim. -/
theorem claim_C10_exponent_accumulator_overflows :
    findExponentLoopF64 FUEL f64_1e300minus = some 316
    ∧ ¬ (316 : Nat) ≤ 127
    ∧ Quantized.find_exponent_f64 f64_1e300minus = 60
    ∧ Quantized.find_exponent_f64 f64_1e300minus ≠ 316 := by decide

/-- C10 as amended: under bit-exact double semantics the scaling loop of
find_exponent terminates for every normal-range finite f64 input, and
whenever its step count is at most 127 find_exponent returns that count
without overflow; inputs whose count exceeds 127 (those below roughly
1e-113, such as 1e-300 with count 316) overflow the i8 accumulator
instead. -/
theorem claim_C10_amended (x : F64) (k : Nat)
    (hm1 : 2 ^ 52 ≤ x.m) (hm2 : x.m < 2 ^ 53) (he : -1074 ≤ x.e) :
    (∃ n, findExponentLoopF64 FUEL x = some n)
    ∧ (findExponentLoopF64 FUEL x = some k → k ≤ 127 →
        Quantized.find_exponent_f64 x = k) := by
  constructor
  · have he2 : -(3 * ((1199 : Nat) : Int)) ≤ x.e := by
      push_cast
      omega
    obtain ⟨n, hn⟩ := loopF64_some 1199 x hm1 hm2 he2
    exact ⟨n, by rw [show FUEL = 1199 + 1 from rfl]; exact hn⟩
  · intro hk hle
    unfold Quantized.find_exponent_f64
    rw [hk]
    exact wrap8_of_le k hle

/-- Witness for the amended C10 at the double 0.25, whose loop count is 2:
the loop terminates and find_exponent returns 2. -/
theorem claim_C10_amended_witness :
    Quantized.find_exponent_f64 f64_quarter = 2 := by
  have h := claim_C10_amended f64_quarter 2 (by decide) (by decide) (by decide)
  exact h.2 (by decide) (by decide)

end Ionex

